import Mathlib

set_option maxHeartbeats 1000000

/-!
Shallow embedding of the value-classification and equality-testing library
(src/index.js): the classifier getRealType, the shallow type check getType,
the structural comparator areEqual, and the aggregation functions
allItemsHaveTheSameType, everyItemHasAUniqueRealType and countRealTypes.

The repository holds two revisions of the file; they agree on every function
except areEqual, where the later (TypeScript) revision replaces a join-based
comparison by the recursive element-wise comparison that the documentation
and the areEqual test block describe. The comparator embedded here is the
recursive one (lines 285-301).
-/

/-- Numeric values of the host language as far as the program distinguishes
them: the not-a-number value, the two infinities, and finite numbers
(modelled by integers, which covers every numeric literal the program
manipulates). -/
inductive JSNumber : Type where
  | nan : JSNumber
  | inf : JSNumber
  | negInf : JSNumber
  | finite : Int → JSNumber
deriving DecidableEq

/-- Kinds of boxed primitive wrapper objects (produced by the Boolean,
Number and String constructors used with new). -/
inductive WrapperKind : Type where
  | wBoolean : WrapperKind
  | wNumber : WrapperKind
  | wString : WrapperKind
deriving DecidableEq

/-- Runtime values. Arrays carry their elements; every other composite kind
carries a numeric identity standing for the object reference, since the
program only ever inspects such values through typeof, instanceof and
strict identity. -/
inductive JSValue : Type where
  | vBool : Bool → JSValue
  | vNum : JSNumber → JSValue
  | vStr : String → JSValue
  | vUndefined : JSValue
  | vNull : JSValue
  | vBigInt : Int → JSValue
  | vArray : List JSValue → JSValue
  | vFunction : Nat → JSValue
  | vDate : Nat → JSValue
  | vRegExp : Nat → JSValue
  | vSet : Nat → JSValue
  | vMap : Nat → JSValue
  | vWeakSet : Nat → JSValue
  | vWeakMap : Nat → JSValue
  | vSymbol : Nat → JSValue
  | vPromise : Nat → JSValue
  | vObject : Nat → JSValue
  | vWrapper : WrapperKind → Nat → JSValue

open JSValue

/-- The typeof operator. Wrapper objects, null, arrays and all the
collection kinds report "object"; functions report "function". -/
def jsTypeof : JSValue → String
  | vBool _ => "boolean"
  | vNum _ => "number"
  | vStr _ => "string"
  | vUndefined => "undefined"
  | vNull => "object"
  | vBigInt _ => "bigint"
  | vArray _ => "object"
  | vFunction _ => "function"
  | vDate _ => "object"
  | vRegExp _ => "object"
  | vSet _ => "object"
  | vMap _ => "object"
  | vWeakSet _ => "object"
  | vWeakMap _ => "object"
  | vSymbol _ => "symbol"
  | vPromise _ => "object"
  | vObject _ => "object"
  | vWrapper _ _ => "object"

/-- The check value === null. -/
def isNullCheck : JSValue → Bool
  | vNull => true
  | _ => false

/-- The check value === Infinity || value === -Infinity: strict equality
against the two infinite number primitives. -/
def isInfinityCheck : JSValue → Bool
  | vNum JSNumber.inf => true
  | vNum JSNumber.negInf => true
  | _ => false

/-- The check Number.isNaN(value): true exactly on the not-a-number
number primitive. -/
def isNaNCheck : JSValue → Bool
  | vNum JSNumber.nan => true
  | _ => false

/-- The check Array.isArray(value). -/
def isArrayCheck : JSValue → Bool
  | vArray _ => true
  | _ => false

/-- The check value instanceof Function. -/
def instanceofFunction : JSValue → Bool
  | vFunction _ => true
  | _ => false

/-- The check value instanceof Date. -/
def instanceofDate : JSValue → Bool
  | vDate _ => true
  | _ => false

/-- The check value instanceof RegExp. -/
def instanceofRegExp : JSValue → Bool
  | vRegExp _ => true
  | _ => false

/-- The check value instanceof Set. -/
def instanceofSet : JSValue → Bool
  | vSet _ => true
  | _ => false

/-- The check value instanceof Map. -/
def instanceofMap : JSValue → Bool
  | vMap _ => true
  | _ => false

/-- The check value instanceof WeakSet. -/
def instanceofWeakSet : JSValue → Bool
  | vWeakSet _ => true
  | _ => false

/-- The check value instanceof WeakMap. -/
def instanceofWeakMap : JSValue → Bool
  | vWeakMap _ => true
  | _ => false

/-- The check value instanceof Promise. -/
def instanceofPromise : JSValue → Bool
  | vPromise _ => true
  | _ => false

/-- Strict equality on number primitives: NaN compares false even against
itself, the infinities compare true only against themselves, finite numbers
compare by value. -/
def numStrictEq : JSNumber → JSNumber → Bool
  | JSNumber.nan, _ => false
  | _, JSNumber.nan => false
  | JSNumber.inf, JSNumber.inf => true
  | JSNumber.negInf, JSNumber.negInf => true
  | JSNumber.finite x, JSNumber.finite y => decide (x = y)
  | _, _ => false

/-- Strict equality (the === operator): value equality on primitives (with
NaN never equal to itself), reference identity on composites. Two vArray
values stand for arrays built by distinct literals, hence compare false;
the comparator never applies === to a pair of arrays, because the branch
for two arrays is taken first. -/
def jsStrictEq : JSValue → JSValue → Bool
  | vBool x, vBool y => decide (x = y)
  | vNum x, vNum y => numStrictEq x y
  | vStr x, vStr y => decide (x = y)
  | vUndefined, vUndefined => true
  | vNull, vNull => true
  | vBigInt x, vBigInt y => decide (x = y)
  | vArray _, vArray _ => false
  | vFunction i, vFunction j => decide (i = j)
  | vDate i, vDate j => decide (i = j)
  | vRegExp i, vRegExp j => decide (i = j)
  | vSet i, vSet j => decide (i = j)
  | vMap i, vMap j => decide (i = j)
  | vWeakSet i, vWeakSet j => decide (i = j)
  | vWeakMap i, vWeakMap j => decide (i = j)
  | vSymbol i, vSymbol j => decide (i = j)
  | vPromise i, vPromise j => decide (i = j)
  | vObject i, vObject j => decide (i = j)
  | vWrapper w i, vWrapper u j => decide (w = u) && decide (i = j)
  | _, _ => false

/-- getType: return the native (shallow) type of a value. -/
def getType (value : JSValue) : String :=
  jsTypeof value

/-- getRealType: the priority-ordered classifier (lines 343-406), embedded
check for check in source order. -/
def getRealType (value : JSValue) : String :=
  if jsTypeof value = "boolean" then "boolean"
  else if jsTypeof value = "string" then "string"
  else if jsTypeof value = "undefined" then "undefined"
  else if isNullCheck value then "null"
  else if isInfinityCheck value then "Infinity"
  else if isNaNCheck value then "NaN"
  else if jsTypeof value = "number" then "number"
  else if jsTypeof value = "bigint" then "bigint"
  else if isArrayCheck value then "array"
  else if instanceofFunction value then "function"
  else if instanceofDate value then "date"
  else if instanceofRegExp value then "regexp"
  else if instanceofSet value then "set"
  else if instanceofMap value then "map"
  else if instanceofWeakSet value then "weakset"
  else if instanceofWeakMap value then "weakmap"
  else if jsTypeof value = "symbol" then "symbol"
  else if instanceofPromise value then "promise"
  else if jsTypeof value = "object" then "object"
  else "unknown"

/-- The closed enumeration of type tags from the data model. -/
def typeTags : List String :=
  ["boolean", "string", "undefined", "null", "Infinity", "NaN", "number",
   "bigint", "array", "function", "date", "regexp", "set", "map",
   "weakset", "weakmap", "symbol", "promise", "object", "unknown"]

mutual

/-- areEqual (lines 285-301): two arrays are compared by length and then
element by element, recursively; any other pair falls back to strict
equality. -/
def areEqual : JSValue → JSValue → Bool
  | vArray xs, vArray ys =>
      if xs.length = ys.length then areEqualAux xs ys else false
  | a, b => jsStrictEq a b

/-- The element-by-element loop of areEqual, run only on lists of equal
length. -/
def areEqualAux : List JSValue → List JSValue → Bool
  | [], [] => true
  | x :: xs, y :: ys => areEqual x y && areEqualAux xs ys
  | _, _ => false

end

/-- getTypesOfItems: map the shallow type over the items. -/
def getTypesOfItems (arr : List JSValue) : List String :=
  arr.map jsTypeof

/-- allItemsHaveTheSameType: insert every shallow type into a set and test
that the set has size exactly one. The size of the set of inserted strings
is the number of distinct strings, modelled by the length of the
deduplicated list. -/
def allItemsHaveTheSameType (arr : List JSValue) : Bool :=
  (arr.map jsTypeof).dedup.length == 1

/-- getRealTypesOfItems: map the classifier over the items. -/
def getRealTypesOfItems (arr : List JSValue) : List String :=
  arr.map getRealType

/-- everyItemHasAUniqueRealType: insert every real type into a set and
compare the size of the set with the length of the input. -/
def everyItemHasAUniqueRealType (arr : List JSValue) : Bool :=
  arr.length == (arr.map getRealType).dedup.length

/-- One forEach step of countRealTypes: if the tag is already a key of the
accumulator object, increment its count, otherwise append it with count 1.
A plain object with string keys enumerates in insertion order, so the
accumulator is an association list with new keys appended at the end. -/
def bumpCount : List (String × Nat) → String → List (String × Nat)
  | [], t => [(t, 1)]
  | (k, c) :: rest, t =>
      if k = t then (k, c + 1) :: rest else (k, c) :: bumpCount rest t

/-- Insertion step of the ascending sort by key used on the entries. -/
def insertPair (p : String × Nat) : List (String × Nat) → List (String × Nat)
  | [] => [p]
  | q :: rest => if p.1 ≤ q.1 then p :: q :: rest else q :: insertPair p rest

/-- Sort of the entry list, ascending in the key. The source sorts with the
comparator a[0].localeCompare(b[0]), a consistent total order on the key
strings, modelled here by the lexicographic order on strings. -/
def sortPairs : List (String × Nat) → List (String × Nat)
  | [] => []
  | p :: rest => insertPair p (sortPairs rest)

/-- countRealTypes: accumulate a count per real type over the items in
order, then sort the entries by tag. -/
def countRealTypes (arr : List JSValue) : List (String × Nat) :=
  sortPairs (arr.foldl (fun m value => bumpCount m (getRealType value)) [])

/-- The knownTypes sample list: one value of each of the 19 kinds named in
the test block (lines 469-491). -/
def knownTypes : List JSValue :=
  [vBool true,
   vNum (JSNumber.finite 123),
   vStr "123",
   vArray [vNum (JSNumber.finite 1), vNum (JSNumber.finite 2), vNum (JSNumber.finite 3)],
   vObject 0,
   vFunction 0,
   vUndefined,
   vNull,
   vNum JSNumber.nan,
   vNum JSNumber.inf,
   vDate 0,
   vRegExp 0,
   vSet 0,
   vMap 0,
   vWeakSet 0,
   vWeakMap 0,
   vBigInt 123,
   vSymbol 0,
   vPromise 0]

/-- Number of occurrences of a tag in a list of tags. -/
def countTag : List String → String → Nat
  | [], _ => 0
  | s :: rest, t => (if s = t then 1 else 0) + countTag rest t

/-- Count associated with a key in the accumulator object, zero when the
key is absent. -/
def lookupCount : List (String × Nat) → String → Nat
  | [], _ => 0
  | (k, c) :: rest, t => if k = t then c else lookupCount rest t

theorem getRealType_vBool (b : Bool) : getRealType (vBool b) = "boolean" := rfl

theorem getRealType_vStr (s : String) : getRealType (vStr s) = "string" := rfl

theorem getRealType_vUndefined : getRealType vUndefined = "undefined" := rfl

theorem getRealType_vNull : getRealType vNull = "null" := rfl

theorem getRealType_nan : getRealType (vNum JSNumber.nan) = "NaN" := rfl

theorem getRealType_inf : getRealType (vNum JSNumber.inf) = "Infinity" := rfl

theorem getRealType_negInf : getRealType (vNum JSNumber.negInf) = "Infinity" := rfl

theorem getRealType_finite (q : Int) : getRealType (vNum (JSNumber.finite q)) = "number" := rfl

theorem getRealType_vBigInt (q : Int) : getRealType (vBigInt q) = "bigint" := rfl

theorem getRealType_vArray (xs : List JSValue) : getRealType (vArray xs) = "array" := rfl

theorem getRealType_vFunction (i : Nat) : getRealType (vFunction i) = "function" := rfl

theorem getRealType_vDate (i : Nat) : getRealType (vDate i) = "date" := rfl

theorem getRealType_vRegExp (i : Nat) : getRealType (vRegExp i) = "regexp" := rfl

theorem getRealType_vSet (i : Nat) : getRealType (vSet i) = "set" := rfl

theorem getRealType_vMap (i : Nat) : getRealType (vMap i) = "map" := rfl

theorem getRealType_vWeakSet (i : Nat) : getRealType (vWeakSet i) = "weakset" := rfl

theorem getRealType_vWeakMap (i : Nat) : getRealType (vWeakMap i) = "weakmap" := rfl

theorem getRealType_vSymbol (i : Nat) : getRealType (vSymbol i) = "symbol" := rfl

theorem getRealType_vPromise (i : Nat) : getRealType (vPromise i) = "promise" := rfl

theorem getRealType_vObject (i : Nat) : getRealType (vObject i) = "object" := rfl

theorem getRealType_vWrapper (w : WrapperKind) (i : Nat) : getRealType (vWrapper w i) = "object" := rfl

/-- C4: classify is a total function over all runtime values: it never
fails and always returns exactly one tag drawn from the fixed closed
enumeration of TypeTags (with unknown as the fallback for unrecognized
shapes). -/
theorem getRealType_total (v : JSValue) : getRealType v ∈ typeTags := by
  cases v with
  | vBool b => exact (by decide : ("boolean" : String) ∈ typeTags)
  | vNum x =>
      cases x with
      | nan => exact (by decide : ("NaN" : String) ∈ typeTags)
      | inf => exact (by decide : ("Infinity" : String) ∈ typeTags)
      | negInf => exact (by decide : ("Infinity" : String) ∈ typeTags)
      | finite q => exact (by decide : ("number" : String) ∈ typeTags)
  | vStr s => exact (by decide : ("string" : String) ∈ typeTags)
  | vUndefined => exact (by decide : ("undefined" : String) ∈ typeTags)
  | vNull => exact (by decide : ("null" : String) ∈ typeTags)
  | vBigInt q => exact (by decide : ("bigint" : String) ∈ typeTags)
  | vArray xs => exact (by decide : ("array" : String) ∈ typeTags)
  | vFunction i => exact (by decide : ("function" : String) ∈ typeTags)
  | vDate i => exact (by decide : ("date" : String) ∈ typeTags)
  | vRegExp i => exact (by decide : ("regexp" : String) ∈ typeTags)
  | vSet i => exact (by decide : ("set" : String) ∈ typeTags)
  | vMap i => exact (by decide : ("map" : String) ∈ typeTags)
  | vWeakSet i => exact (by decide : ("weakset" : String) ∈ typeTags)
  | vWeakMap i => exact (by decide : ("weakmap" : String) ∈ typeTags)
  | vSymbol i => exact (by decide : ("symbol" : String) ∈ typeTags)
  | vPromise i => exact (by decide : ("promise" : String) ∈ typeTags)
  | vObject i => exact (by decide : ("object" : String) ∈ typeTags)
  | vWrapper w i => exact (by decide : ("object" : String) ∈ typeTags)

/-- C5: for every numeric primitive, the classifier answers NaN exactly on
the value that fails strict self-equality, Infinity exactly on the two
infinite values, and number exactly on the finite values; the embedded
definition keeps the source order of the three checks (Infinity before NaN
before the generic number check). -/
theorem getRealType_numeric_spec (x : JSNumber) :
    (getRealType (vNum x) = "NaN" ↔ x = JSNumber.nan)
    ∧ (jsStrictEq (vNum x) (vNum x) = false ↔ x = JSNumber.nan)
    ∧ (getRealType (vNum x) = "Infinity" ↔ x = JSNumber.inf ∨ x = JSNumber.negInf)
    ∧ (getRealType (vNum x) = "number" ↔ ∃ q : Int, x = JSNumber.finite q) := by
  cases x <;>
    simp [getRealType, jsTypeof, isNullCheck, isInfinityCheck, isNaNCheck,
      isArrayCheck, jsStrictEq, numStrictEq]

/-- Witness for C5 at the concrete value NaN. -/
theorem getRealType_numeric_spec_witness :
    getRealType (vNum JSNumber.nan) = "NaN" :=
  (getRealType_numeric_spec JSNumber.nan).1.mpr rfl

/-- C8: on the knownTypes list holding one instance of each of the 19 named
kinds, mapping the classifier yields the 19 expected pairwise-distinct
tags, and everyItemHasAUniqueRealType holds. -/
theorem knownTypes_all_distinct :
    getRealTypesOfItems knownTypes =
      ["boolean", "number", "string", "array", "object", "function",
       "undefined", "null", "NaN", "Infinity", "date", "regexp", "set",
       "map", "weakset", "weakmap", "bigint", "symbol", "promise"]
    ∧ (getRealTypesOfItems knownTypes).length = 19
    ∧ (getRealTypesOfItems knownTypes).Nodup
    ∧ everyItemHasAUniqueRealType knownTypes = true := by
  refine ⟨by decide, by decide, by decide, by decide⟩

/-- C9: areEqual applied to NaN and NaN returns false, because non-sequence
operands fall back to strict identity, under which NaN is not identical to
itself; hence areEqual is not reflexive over all values. -/
theorem areEqual_nan_not_reflexive :
    areEqual (vNum JSNumber.nan) (vNum JSNumber.nan) = false
    ∧ ∃ v : JSValue, areEqual v v = false :=
  ⟨by decide, ⟨vNum JSNumber.nan, by decide⟩⟩

/-- C10: every boxed primitive wrapper object (a Boolean, Number or String
built with new) is classified object, not with the corresponding primitive
tag: the primitive checks match only primitives and no rule before the
generic object fallback matches a wrapper. -/
theorem wrapper_classified_object (w : WrapperKind) (i : Nat) :
    getRealType (vWrapper w i) = "object" ∧ jsTypeof (vWrapper w i) = "object" :=
  ⟨rfl, rfl⟩

theorem areEqualAux_iff (xs : List JSValue) : ∀ ys : List JSValue,
    xs.length = ys.length →
    (areEqualAux xs ys = true ↔ ∀ p ∈ xs.zip ys, areEqual p.1 p.2 = true) := by
  induction xs with
  | nil =>
      intro ys h
      cases ys with
      | nil => simp [areEqualAux]
      | cons y ys => simp at h
  | cons x xs ih =>
      intro ys h
      cases ys with
      | nil => simp at h
      | cons y ys =>
          have h' : xs.length = ys.length := by simpa using h
          rw [List.zip_cons_cons]
          simp only [areEqualAux, Bool.and_eq_true, List.forall_mem_cons]
          exact and_congr_right fun _ => ih ys h'

/-- C1: for two array operands, areEqual answers true exactly when the
lengths agree and every index-paired pair of elements is recursively
areEqual; in particular on the three concrete pairs of the test block,
with no coercion between numbers and strings. -/
theorem areEqual_sequences_spec (xs ys : List JSValue) :
    (areEqual (vArray xs) (vArray ys) = true ↔
      xs.length = ys.length ∧ ∀ p ∈ xs.zip ys, areEqual p.1 p.2 = true)
    ∧ areEqual (vArray [vNum (JSNumber.finite 11), vNum (JSNumber.finite 12)])
        (vArray [vNum (JSNumber.finite 11), vNum (JSNumber.finite 12)]) = true
    ∧ areEqual (vArray [vNum (JSNumber.finite 11), vNum (JSNumber.finite 12)])
        (vArray [vNum (JSNumber.finite 11), vNum (JSNumber.finite 12),
          vNum (JSNumber.finite 13)]) = false
    ∧ areEqual (vArray [vNum (JSNumber.finite 11), vNum (JSNumber.finite 12)])
        (vArray [vStr "11", vStr "12"]) = false := by
  refine ⟨?_, by decide, by decide, by decide⟩
  show (if xs.length = ys.length then areEqualAux xs ys else false) = true ↔ _
  by_cases h : xs.length = ys.length
  · rw [if_pos h, areEqualAux_iff xs ys h]
    exact (and_iff_right h).symm
  · rw [if_neg h]
    simp [h]

/-- Witness for C1 at a concrete pair of singleton arrays. -/
theorem areEqual_sequences_spec_witness :
    areEqual (vArray [vNull]) (vArray [vNull]) = true :=
  (areEqual_sequences_spec [vNull] [vNull]).1.mpr ⟨rfl, by decide⟩

theorem nodup_all_eq_singleton {α : Type} {l : List α} {x : α} (hx : x ∈ l)
    (hall : ∀ a ∈ l, a = x) (hnd : l.Nodup) : l = [x] := by
  cases l with
  | nil => exact absurd hx (List.not_mem_nil x)
  | cons a rest =>
      have ha : a = x := hall a (List.mem_cons_self a rest)
      subst ha
      cases rest with
      | nil => rfl
      | cons b rest2 =>
          have hb : b = a := hall b (by simp)
          subst hb
          exact absurd (List.mem_cons_self b rest2) (List.nodup_cons.mp hnd).1

theorem dedup_length_eq_one_iff (l : List String) :
    l.dedup.length = 1 ↔ l ≠ [] ∧ ∀ a ∈ l, ∀ b ∈ l, a = b := by
  constructor
  · intro h
    obtain ⟨t, ht⟩ := List.length_eq_one.mp h
    refine ⟨?_, ?_⟩
    · intro hnil
      subst hnil
      simp at ht
    · intro a ha b hb
      have ha' : a ∈ l.dedup := List.mem_dedup.mpr ha
      have hb' : b ∈ l.dedup := List.mem_dedup.mpr hb
      rw [ht, List.mem_singleton] at ha' hb'
      rw [ha', hb']
  · rintro ⟨hne, hall⟩
    obtain ⟨x, hx⟩ := List.exists_mem_of_ne_nil l hne
    have hd : l.dedup = [x] :=
      nodup_all_eq_singleton (List.mem_dedup.mpr hx)
        (fun a ha => hall a (List.mem_dedup.mp ha) x hx) l.nodup_dedup
    rw [hd]
    rfl

/-- C2 counterexample: on the empty input the set of shallow types has size
zero, not one, so allItemsHaveTheSameType returns false, refuting the part
of the claim that says the empty input is trivially true. -/
theorem allItemsHaveTheSameType_empty_cex :
    allItemsHaveTheSameType ([] : List JSValue) = false := by decide

/-- C2 amended: allItemsHaveTheSameType returns true iff the input is
nonempty and every pair of elements has the same shallow (typeof-style)
type; single-element input is trivially true, while the empty input yields
false (the set of collected types then has size zero, not one). -/
theorem allItemsHaveTheSameType_spec :
    (∀ arr : List JSValue,
      (allItemsHaveTheSameType arr = true ↔
        arr ≠ [] ∧ ∀ a ∈ arr, ∀ b ∈ arr, jsTypeof a = jsTypeof b))
    ∧ (∀ v : JSValue, allItemsHaveTheSameType [v] = true)
    ∧ allItemsHaveTheSameType ([] : List JSValue) = false := by
  have h1 : ∀ arr : List JSValue,
      (allItemsHaveTheSameType arr = true ↔
        arr ≠ [] ∧ ∀ a ∈ arr, ∀ b ∈ arr, jsTypeof a = jsTypeof b) := by
    intro arr
    show ((arr.map jsTypeof).dedup.length == 1) = true ↔ _
    rw [beq_iff_eq, dedup_length_eq_one_iff]
    constructor
    · rintro ⟨hne, hall⟩
      refine ⟨fun h => hne (by simp [h]), ?_⟩
      intro a ha b hb
      exact hall _ (List.mem_map_of_mem jsTypeof ha) _ (List.mem_map_of_mem jsTypeof hb)
    · rintro ⟨hne, hall⟩
      refine ⟨by simpa using hne, ?_⟩
      intro a ha b hb
      obtain ⟨x, hx, rfl⟩ := List.mem_map.mp ha
      obtain ⟨y, hy, rfl⟩ := List.mem_map.mp hb
      exact hall x hx y hy
  refine ⟨h1, ?_, by decide⟩
  intro v
  refine (h1 [v]).mpr ⟨by simp, ?_⟩
  intro a ha b hb
  rw [List.mem_singleton] at ha hb
  rw [ha, hb]

/-- Witness for C2 applying the amended theorem to a singleton input. -/
theorem allItemsHaveTheSameType_spec_witness :
    allItemsHaveTheSameType [vBool true] = true :=
  allItemsHaveTheSameType_spec.2.1 (vBool true)

theorem numStrictEq_symm (x y : JSNumber) : numStrictEq x y = numStrictEq y x := by
  cases x <;> cases y <;> simp [numStrictEq, eq_comm]

theorem jsStrictEq_symm (a b : JSValue) : jsStrictEq a b = jsStrictEq b a := by
  cases a <;> cases b <;> simp [jsStrictEq, numStrictEq_symm, eq_comm]

theorem areEqualAux_symm (xs : List JSValue)
    (hsym : ∀ x ∈ xs, ∀ b : JSValue, areEqual x b = areEqual b x) :
    ∀ ys : List JSValue, areEqualAux xs ys = areEqualAux ys xs := by
  induction xs with
  | nil =>
      intro ys
      cases ys <;> simp [areEqualAux]
  | cons x xs ihx =>
      intro ys
      cases ys with
      | nil => simp [areEqualAux]
      | cons y ys =>
          have h1 : areEqual x y = areEqual y x := hsym x (by simp) y
          have h2 := ihx (fun z hz b => hsym z (by simp [hz]) b) ys
          simp [areEqualAux, h1, h2]

theorem areEqual_eq_jsStrictEq_left (a b : JSValue) (ha : ∀ xs, a ≠ vArray xs) :
    areEqual a b = jsStrictEq a b := by
  cases a <;> first | rfl | exact absurd rfl (ha _)

theorem areEqual_eq_jsStrictEq_right (a b : JSValue) (hb : ∀ ys, b ≠ vArray ys) :
    areEqual a b = jsStrictEq a b := by
  cases b <;> cases a <;> first | rfl | exact absurd rfl (hb _)

theorem areEqual_symm_of_not_both_arrays (a b : JSValue)
    (h : (∀ xs, a ≠ vArray xs) ∨ (∀ ys, b ≠ vArray ys)) :
    areEqual a b = areEqual b a := by
  cases h with
  | inl ha =>
      rw [areEqual_eq_jsStrictEq_left a b ha, areEqual_eq_jsStrictEq_right b a ha]
      exact jsStrictEq_symm a b
  | inr hb =>
      rw [areEqual_eq_jsStrictEq_right a b hb, areEqual_eq_jsStrictEq_left b a hb]
      exact jsStrictEq_symm a b

theorem areEqual_symm_bounded :
    ∀ n : Nat, ∀ a b : JSValue, sizeOf a ≤ n → areEqual a b = areEqual b a := by
  intro n
  induction n with
  | zero =>
      intro a b h
      exact absurd h (by cases a <;> simp)
  | succ n ih =>
      intro a b hle
      by_cases hA : ∀ xs, a ≠ vArray xs
      · exact areEqual_symm_of_not_both_arrays a b (Or.inl hA)
      · by_cases hB : ∀ ys, b ≠ vArray ys
        · exact areEqual_symm_of_not_both_arrays a b (Or.inr hB)
        · push_neg at hA hB
          obtain ⟨xs, rfl⟩ := hA
          obtain ⟨ys, rfl⟩ := hB
          have hsize : ∀ x ∈ xs, sizeOf x ≤ n := by
            intro x hx
            have h1 : sizeOf x < sizeOf xs := List.sizeOf_lt_of_mem hx
            have h2 : sizeOf (vArray xs) = 1 + sizeOf xs := by simp
            omega
          have haux := areEqualAux_symm xs (fun x hx b => ih x b (hsize x hx)) ys
          show (if xs.length = ys.length then areEqualAux xs ys else false)
             = (if ys.length = xs.length then areEqualAux ys xs else false)
          by_cases h : xs.length = ys.length
          · rw [if_pos h, if_pos h.symm, haux]
          · rw [if_neg h, if_neg fun hh => h hh.symm]

theorem areEqual_symm (a b : JSValue) : areEqual a b = areEqual b a :=
  areEqual_symm_bounded (sizeOf a) a b (le_refl _)

theorem areEqual_singleton (a : JSValue) :
    areEqual (vArray [a]) (vArray [a]) = areEqual a a := by
  show (if ([a] : List JSValue).length = ([a] : List JSValue).length
        then areEqualAux [a] [a] else false) = areEqual a a
  rw [if_pos rfl]
  show (areEqual a a && true) = areEqual a a
  rw [Bool.and_true]

/-- C7 counterexample: for a = NaN, areEqual applied to the two singleton
arrays [NaN] and [NaN] returns false, refuting the part of the claim that
says areEqual([a],[a]) is true for every value a. -/
theorem areEqual_singleton_nan_cex :
    areEqual (vArray [vNum JSNumber.nan]) (vArray [vNum JSNumber.nan]) = false := by
  decide

/-- C7 amended: areEqual is symmetric for all values; areEqual([a],[a])
always equals areEqual(a,a), so it is true for every value a that is
deeply equal to itself, while for a = NaN it is false. -/
theorem areEqual_symm_and_singleton :
    (∀ a b : JSValue, areEqual a b = areEqual b a)
    ∧ (∀ a : JSValue, areEqual (vArray [a]) (vArray [a]) = areEqual a a)
    ∧ (∀ a : JSValue, areEqual a a = true → areEqual (vArray [a]) (vArray [a]) = true)
    ∧ areEqual (vArray [vNum JSNumber.nan]) (vArray [vNum JSNumber.nan]) ≠ true := by
  refine ⟨areEqual_symm, areEqual_singleton, ?_, by decide⟩
  intro a h
  rw [areEqual_singleton a]
  exact h

/-- Witness for C7 applying the amended theorem to a self-identical value. -/
theorem areEqual_symm_and_singleton_witness :
    areEqual (vArray [vNum (JSNumber.finite 5)]) (vArray [vNum (JSNumber.finite 5)]) = true :=
  areEqual_symm_and_singleton.2.2.1 (vNum (JSNumber.finite 5)) (by decide)

theorem countTag_eq_zero_iff (l : List String) (t : String) :
    countTag l t = 0 ↔ t ∉ l := by
  induction l with
  | nil => simp [countTag]
  | cons s rest ih =>
      by_cases h : s = t
      · subst h
        simp [countTag]
      · simp [countTag, h, ih, Ne.symm h]

theorem countTag_pos_of_mem {l : List String} {t : String} (h : t ∈ l) :
    0 < countTag l t := by
  rcases Nat.eq_zero_or_pos (countTag l t) with h0 | hp
  · exact absurd ((countTag_eq_zero_iff l t).mp h0) (not_not.mpr h)
  · exact hp

theorem nodup_iff_countTag_eq_one (l : List String) :
    l.Nodup ↔ ∀ t ∈ l, countTag l t = 1 := by
  induction l with
  | nil => simp
  | cons s rest ih =>
      rw [List.nodup_cons]
      constructor
      · rintro ⟨hs, hnd⟩ t ht
        rcases List.mem_cons.mp ht with rfl | htr
        · have h0 : countTag rest t = 0 := (countTag_eq_zero_iff rest t).mpr hs
          simp [countTag, h0]
        · have hne : s ≠ t := fun h => hs (h ▸ htr)
          simp [countTag, hne, ih.mp hnd t htr]
      · intro hall
        have hs : s ∉ rest := by
          intro hmem
          have h1 := hall s (List.mem_cons_self s rest)
          simp [countTag] at h1
          exact absurd ((countTag_eq_zero_iff rest s).mp h1) (not_not.mpr hmem)
        refine ⟨hs, ih.mpr ?_⟩
        intro t ht
        have h1 := hall t (List.mem_cons.mpr (Or.inr ht))
        have hne : s ≠ t := fun h => hs (h ▸ ht)
        simpa [countTag, hne] using h1

theorem bumpCount_cons_self (k : String) (c : Nat) (rest : List (String × Nat)) :
    bumpCount ((k, c) :: rest) k = (k, c + 1) :: rest := by
  simp [bumpCount]

theorem bumpCount_cons_other (k : String) (c : Nat) (rest : List (String × Nat))
    {t : String} (h : k ≠ t) :
    bumpCount ((k, c) :: rest) t = (k, c) :: bumpCount rest t := by
  simp [bumpCount, h]

theorem bumpCount_keys_mem (m : List (String × Nat)) (t s : String) :
    s ∈ (bumpCount m t).map Prod.fst ↔ s ∈ m.map Prod.fst ∨ s = t := by
  induction m with
  | nil => simp [bumpCount]
  | cons p rest ih =>
      obtain ⟨k, c⟩ := p
      by_cases h : k = t
      · subst h
        rw [bumpCount_cons_self]
        simp only [List.map_cons, List.mem_cons]
        tauto
      · rw [bumpCount_cons_other k c rest h]
        simp only [List.map_cons, List.mem_cons, ih]
        tauto

theorem bumpCount_keys_nodup {m : List (String × Nat)} (t : String)
    (h : (m.map Prod.fst).Nodup) : ((bumpCount m t).map Prod.fst).Nodup := by
  induction m with
  | nil => simp [bumpCount]
  | cons p rest ih =>
      obtain ⟨k, c⟩ := p
      rw [List.map_cons, List.nodup_cons] at h
      by_cases hk : k = t
      · subst hk
        rw [bumpCount_cons_self, List.map_cons, List.nodup_cons]
        exact ⟨h.1, h.2⟩
      · rw [bumpCount_cons_other k c rest hk, List.map_cons, List.nodup_cons]
        refine ⟨?_, ih h.2⟩
        rw [bumpCount_keys_mem]
        rintro (hmem | rfl)
        · exact h.1 hmem
        · exact hk rfl

theorem lookupCount_bumpCount_self (m : List (String × Nat)) (t : String) :
    lookupCount (bumpCount m t) t = lookupCount m t + 1 := by
  induction m with
  | nil => simp [bumpCount, lookupCount]
  | cons p rest ih =>
      obtain ⟨k, c⟩ := p
      by_cases h : k = t
      · subst h
        rw [bumpCount_cons_self]
        simp [lookupCount]
      · rw [bumpCount_cons_other k c rest h]
        simp [lookupCount, h, ih]

theorem lookupCount_bumpCount_other (m : List (String × Nat)) {t s : String}
    (hne : s ≠ t) : lookupCount (bumpCount m t) s = lookupCount m s := by
  induction m with
  | nil => simp [bumpCount, lookupCount, Ne.symm hne]
  | cons p rest ih =>
      obtain ⟨k, c⟩ := p
      by_cases h : k = t
      · subst h
        rw [bumpCount_cons_self]
        simp [lookupCount, Ne.symm hne]
      · rw [bumpCount_cons_other k c rest h]
        by_cases hs : k = s
        · subst hs
          simp [lookupCount]
        · simp [lookupCount, hs, ih]

theorem entry_eq_lookupCount {m : List (String × Nat)}
    (hnd : (m.map Prod.fst).Nodup) :
    ∀ p ∈ m, p.2 = lookupCount m p.1 := by
  induction m with
  | nil => simp
  | cons q rest ih =>
      obtain ⟨k, c⟩ := q
      rw [List.map_cons, List.nodup_cons] at hnd
      intro p hp
      rcases List.mem_cons.mp hp with rfl | hpr
      · simp [lookupCount]
      · have hk : k ≠ p.1 := by
          intro h
          apply hnd.1
          rw [h]
          exact List.mem_map.mpr ⟨p, hpr, rfl⟩
        simp only [lookupCount, if_neg hk]
        exact ih hnd.2 p hpr

theorem foldl_bumpCount_lookup (tags : List String) :
    ∀ (m : List (String × Nat)) (s : String),
      lookupCount (tags.foldl bumpCount m) s = lookupCount m s + countTag tags s := by
  induction tags with
  | nil => simp [countTag]
  | cons t rest ih =>
      intro m s
      rw [List.foldl_cons, ih]
      by_cases h : s = t
      · subst h
        rw [lookupCount_bumpCount_self]
        simp [countTag]
        omega
      · rw [lookupCount_bumpCount_other m h]
        simp [countTag, Ne.symm h]

theorem foldl_bumpCount_keys_mem (tags : List String) :
    ∀ (m : List (String × Nat)) (s : String),
      (s ∈ (tags.foldl bumpCount m).map Prod.fst ↔ s ∈ m.map Prod.fst ∨ s ∈ tags) := by
  induction tags with
  | nil => simp
  | cons t rest ih =>
      intro m s
      rw [List.foldl_cons, ih, bumpCount_keys_mem]
      constructor
      · rintro ((hm | rfl) | hr)
        · exact Or.inl hm
        · exact Or.inr (List.mem_cons_self _ _)
        · exact Or.inr (List.mem_cons.mpr (Or.inr hr))
      · rintro (hm | ht)
        · exact Or.inl (Or.inl hm)
        · rcases List.mem_cons.mp ht with rfl | hr
          · exact Or.inl (Or.inr rfl)
          · exact Or.inr hr

theorem foldl_bumpCount_keys_nodup (tags : List String) :
    ∀ {m : List (String × Nat)}, (m.map Prod.fst).Nodup →
      ((tags.foldl bumpCount m).map Prod.fst).Nodup := by
  induction tags with
  | nil => exact fun h => h
  | cons t rest ih =>
      intro m h
      rw [List.foldl_cons]
      exact ih (bumpCount_keys_nodup t h)

theorem sumCounts_bumpCount (m : List (String × Nat)) (t : String) :
    ((bumpCount m t).map Prod.snd).sum = (m.map Prod.snd).sum + 1 := by
  induction m with
  | nil => simp [bumpCount]
  | cons p rest ih =>
      obtain ⟨k, c⟩ := p
      by_cases h : k = t
      · subst h
        simp [bumpCount]
        omega
      · simp [bumpCount, h, ih]
        omega

theorem foldl_bumpCount_sum (tags : List String) :
    ∀ m : List (String × Nat),
      ((tags.foldl bumpCount m).map Prod.snd).sum = (m.map Prod.snd).sum + tags.length := by
  induction tags with
  | nil => simp
  | cons t rest ih =>
      intro m
      rw [List.foldl_cons, ih, sumCounts_bumpCount]
      simp
      omega

theorem insertPair_perm (p : String × Nat) (m : List (String × Nat)) :
    List.Perm (insertPair p m) (p :: m) := by
  induction m with
  | nil => exact List.Perm.refl _
  | cons q rest ih =>
      show List.Perm (if p.1 ≤ q.1 then p :: q :: rest else q :: insertPair p rest) (p :: q :: rest)
      by_cases h : p.1 ≤ q.1
      · rw [if_pos h]
      · rw [if_neg h]
        exact (List.Perm.cons q ih).trans (List.Perm.swap p q rest)

theorem sortPairs_perm (m : List (String × Nat)) : List.Perm (sortPairs m) m := by
  induction m with
  | nil => exact List.Perm.refl _
  | cons p rest ih =>
      show List.Perm (insertPair p (sortPairs rest)) (p :: rest)
      exact (insertPair_perm p (sortPairs rest)).trans (List.Perm.cons p ih)

theorem insertPair_pairwise {p : String × Nat} {l : List (String × Nat)}
    (h : List.Pairwise (fun a b : String × Nat => a.1 ≤ b.1) l) :
    List.Pairwise (fun a b : String × Nat => a.1 ≤ b.1) (insertPair p l) := by
  induction l with
  | nil => simp [insertPair]
  | cons q rest ih =>
      rw [List.pairwise_cons] at h
      show List.Pairwise _ (if p.1 ≤ q.1 then p :: q :: rest else q :: insertPair p rest)
      by_cases hle : p.1 ≤ q.1
      · rw [if_pos hle, List.pairwise_cons]
        refine ⟨?_, List.pairwise_cons.mpr h⟩
        intro x hx
        rcases List.mem_cons.mp hx with rfl | hxr
        · exact hle
        · exact le_trans hle (h.1 x hxr)
      · rw [if_neg hle, List.pairwise_cons]
        refine ⟨?_, ih h.2⟩
        intro x hx
        rcases List.mem_cons.mp ((insertPair_perm p rest).mem_iff.mp hx) with rfl | hxr
        · exact le_of_not_le hle
        · exact h.1 x hxr

theorem sortPairs_pairwise (m : List (String × Nat)) :
    List.Pairwise (fun a b : String × Nat => a.1 ≤ b.1) (sortPairs m) := by
  induction m with
  | nil => simp [sortPairs]
  | cons p rest ih =>
      show List.Pairwise _ (insertPair p (sortPairs rest))
      exact insertPair_pairwise ih

theorem countRealTypes_eq_sortPairs (arr : List JSValue) :
    countRealTypes arr = sortPairs ((arr.map getRealType).foldl bumpCount []) := by
  simp only [countRealTypes, List.foldl_map]

/-- C3: for every input, the tags in the output of countRealTypes are
strictly increasing in the order on tag strings used by the sort, and the
counts in the output sum to the length of the input. -/
theorem countRealTypes_sorted_sum (arr : List JSValue) :
    List.Chain' (fun p q : String × Nat => p.1 < q.1) (countRealTypes arr)
    ∧ ((countRealTypes arr).map Prod.snd).sum = arr.length := by
  rw [countRealTypes_eq_sortPairs]
  have hkeys : (((arr.map getRealType).foldl bumpCount []).map Prod.fst).Nodup :=
    foldl_bumpCount_keys_nodup _ (by simp)
  have hperm := sortPairs_perm ((arr.map getRealType).foldl bumpCount [])
  have hkeysSorted : ((sortPairs ((arr.map getRealType).foldl bumpCount [])).map Prod.fst).Nodup :=
    (hperm.map Prod.fst).nodup_iff.mpr hkeys
  have hne : List.Pairwise (fun a b : String × Nat => a.1 ≠ b.1)
      (sortPairs ((arr.map getRealType).foldl bumpCount [])) := by
    rw [List.Nodup, List.pairwise_map] at hkeysSorted
    exact hkeysSorted
  have hlt : List.Pairwise (fun a b : String × Nat => a.1 < b.1)
      (sortPairs ((arr.map getRealType).foldl bumpCount [])) :=
    ((sortPairs_pairwise _).and hne).imp fun h => lt_of_le_of_ne h.1 h.2
  refine ⟨hlt.chain', ?_⟩
  rw [(hperm.map Prod.snd).sum_eq, foldl_bumpCount_sum]
  simp

theorem dedup_length_eq_iff (l : List String) :
    l.dedup.length = l.length ↔ l.Nodup := by
  constructor
  · intro h
    have heq : l.dedup = l := (List.dedup_sublist l).eq_of_length h
    rw [← heq]
    exact List.nodup_dedup l
  · intro h
    rw [List.dedup_eq_self.mpr h]

/-- C6: everyItemHasAUniqueRealType answers true exactly when every count
in the output of countRealTypes is one, equivalently when no two elements
share a real type tag; the empty input yields true. -/
theorem everyItemHasAUniqueRealType_spec (arr : List JSValue) :
    (everyItemHasAUniqueRealType arr = true ↔ ∀ p ∈ countRealTypes arr, p.2 = 1)
    ∧ (everyItemHasAUniqueRealType arr = true ↔ (arr.map getRealType).Nodup)
    ∧ everyItemHasAUniqueRealType ([] : List JSValue) = true := by
  have hkeys : (((arr.map getRealType).foldl bumpCount []).map Prod.fst).Nodup :=
    foldl_bumpCount_keys_nodup _ (by simp)
  have hperm := sortPairs_perm ((arr.map getRealType).foldl bumpCount [])
  have hcount : ∀ s, lookupCount ((arr.map getRealType).foldl bumpCount []) s
      = countTag (arr.map getRealType) s := by
    intro s
    rw [foldl_bumpCount_lookup]
    simp [lookupCount]
  have hmemkeys : ∀ s, s ∈ ((arr.map getRealType).foldl bumpCount []).map Prod.fst
      ↔ s ∈ arr.map getRealType := by
    intro s
    rw [foldl_bumpCount_keys_mem]
    simp
  have hnodupIff : everyItemHasAUniqueRealType arr = true ↔ (arr.map getRealType).Nodup := by
    show (arr.length == (arr.map getRealType).dedup.length) = true ↔ _
    rw [beq_iff_eq]
    have hlen : arr.length = (arr.map getRealType).length := (List.length_map _ _).symm
    rw [hlen]
    constructor
    · intro h
      exact (dedup_length_eq_iff _).mp h.symm
    · intro h
      exact ((dedup_length_eq_iff _).mpr h).symm
  have hcountIff : (∀ p ∈ countRealTypes arr, p.2 = 1) ↔ (arr.map getRealType).Nodup := by
    rw [nodup_iff_countTag_eq_one, countRealTypes_eq_sortPairs]
    constructor
    · intro h t ht
      obtain ⟨p, hp, hp1⟩ := List.mem_map.mp ((hmemkeys t).mpr ht)
      have h1 : p.2 = 1 := h p (hperm.mem_iff.mpr hp)
      have h2 : p.2 = lookupCount ((arr.map getRealType).foldl bumpCount []) p.1 :=
        entry_eq_lookupCount hkeys p hp
      rw [← hp1, ← hcount p.1, ← h2, h1]
    · intro h p hp
      have hpM : p ∈ (arr.map getRealType).foldl bumpCount [] := hperm.mem_iff.mp hp
      have h2 : p.2 = lookupCount ((arr.map getRealType).foldl bumpCount []) p.1 :=
        entry_eq_lookupCount hkeys p hpM
      have hpk : p.1 ∈ arr.map getRealType :=
        (hmemkeys p.1).mp (List.mem_map.mpr ⟨p, hpM, rfl⟩)
      rw [h2, hcount, h p.1 hpk]
  exact ⟨hnodupIff.trans hcountIff.symm, hnodupIff, by decide⟩

/-- Witness for C6 applying the theorem to the empty input. -/
theorem everyItemHasAUniqueRealType_spec_witness :
    everyItemHasAUniqueRealType ([] : List JSValue) = true :=
  (everyItemHasAUniqueRealType_spec []).2.2

